import Mathlib

/-!
# Verification of the MeerK40t `Kernel.py` coordination kernel

A shallow embedding of the data model and operations of `src/Kernel.py`:
the scheduler (`Scheduler`, `KernelJob`), the signal bus
(`Kernel.signal`, `Kernel.process_queue`, `Kernel.listen`, `Kernel.unlisten`),
the lifecycle registry (`Kernel.start`/`pause`/`resume`/`abort`/`stop`/`reset`),
the loader dispatch (`Kernel.load`) and config persistence
(`Kernel.write_config`).

Modelling conventions:
* Python `dict`s are association lists in insertion order; assignment to an
  existing key keeps its position (`dictSet`), membership/lookup is `dictGet`.
* Wall-clock time is an abstract `Nat` supplied to each operation that reads
  `time.time()`; a job's work item is assumed instantaneous.
* Dynamically typed Python values on the signal bus are the sum type `PyVal`
  (strings and function objects, compared as Python compares them: strings
  by content, functions by identity, here an id number).
* A work item (`job.process`) is external code that does not touch the
  scheduler; its invocation is recorded as an event (the job's id).
* Uncaught Python exceptions are modelled with `Except PyErr`; `KeyError`
  escapes a `dict[k]` lookup of a missing key, `ValueError` escapes
  `list.remove` of an absent element, and `AttributeError` from a missing
  attribute is raised (and possibly caught) where the source accesses it.
-/

set_option autoImplicit false

/-- Python uncaught exception kinds relevant to `Kernel.py`. -/
inductive PyErr where
  | keyError
  | valueError
  | attributeError
deriving DecidableEq, Repr

/-- Python dict lookup `d[k]`: first (unique) binding of `k`. -/
def dictGet {κ α : Type} [DecidableEq κ] (d : List (κ × α)) (k : κ) : Option α :=
  match d with
  | [] => none
  | (k', v) :: rest => if k' = k then some v else dictGet rest k

/-- Python dict assignment `d[k] = v`: overwrite in place if the key is
present (keeping its position, as Python dicts do), else append at the end. -/
def dictSet {κ α : Type} [DecidableEq κ] (d : List (κ × α)) (k : κ) (v : α) :
    List (κ × α) :=
  match d with
  | [] => [(k, v)]
  | (k', v') :: rest =>
      if k' = k then (k, v) :: rest else (k', v') :: dictSet rest k v

/-- Python `list.remove(x)` body: drop the first occurrence of `x` (the caller is
responsible for the `ValueError` when `x` is absent). -/
def listRemove {α : Type} [DecidableEq α] (l : List α) (x : α) : List α :=
  match l with
  | [] => []
  | y :: rest => if y = x then rest else y :: listRemove rest x

/- ## Thread state constants (`Kernel.py` lines 5-10) -/

def THREAD_STATE_UNKNOWN : Int := -1
def THREAD_STATE_UNSTARTED : Int := 0
def THREAD_STATE_STARTED : Int := 1
def THREAD_STATE_PAUSED : Int := 2
def THREAD_STATE_FINISHED : Int := 3
def THREAD_STATE_ABORT : Int := 10

/- ## `KernelJob` (`Kernel.py` lines 13-40) -/

/-- A scheduled job.  `id` stands for the Python object's identity (fresh for
every `add_job`); `times` is the remaining run count (`None` = unlimited),
timestamps are abstract `Nat`s. -/
structure KernelJob where
  id : Nat
  interval : Nat
  last_run : Nat
  next_run : Option Nat
  times : Option Int
  paused : Bool
deriving DecidableEq, Repr

/-- Source property `KernelJob.scheduled` (lines 26-27):
`next_run is not None and time.time() >= next_run`. -/
def KernelJob.scheduled (j : KernelJob) (now : Nat) : Bool :=
  match j.next_run with
  | none => false
  | some t => decide (t ≤ now)

/-- Source method `KernelJob.run` (lines 29-40).  Returns the job object's final field
values, whether the job removed itself from the owning scheduler's job list
(`self.scheduler.jobs.remove(self)` when the decremented finite count is
`<= 0`), and whether `self.process(*self.args)` was invoked.  The source's
statement order is mirrored by the intermediate states: the guard on
`paused`, `next_run = None`, decrement of `times`, self-removal, process
invocation, and finally the recomputation of `last_run`/`next_run`. -/
def KernelJob.run (j : KernelJob) (now : Nat) : KernelJob × Bool × Bool :=
  if j.paused then (j, false, false)
  else
    let j1 : KernelJob := { j with next_run := none }
    let tr : KernelJob × Bool :=
      match j1.times with
      | none => (j1, false)
      | some t => ({ j1 with times := some (t - 1) }, decide (t - 1 ≤ 0))
    let j2 : KernelJob :=
      { tr.1 with last_run := now, next_run := some (now + tr.1.interval) }
    (j2, tr.2, true)

/-- Does one (unpaused) execution of `j` trigger the self-removal branch of
`KernelJob.run` (lines 34-37)? -/
def selfRemoves (j : KernelJob) : Bool :=
  match j.times with
  | none => false
  | some t => decide (t - 1 ≤ 0)

/- ## `Scheduler` (`Kernel.py` lines 43-78) -/

/-- The scheduler's state word and its job list (`self.state`, `self.jobs`). -/
structure Scheduler where
  state : Int
  jobs : List KernelJob
deriving DecidableEq, Repr

/-- Source method `Scheduler.resume` (lines 71-72): unconditionally writes `STARTED`. -/
def Scheduler.resume (s : Scheduler) : Scheduler :=
  { s with state := THREAD_STATE_STARTED }

/-- Source method `Scheduler.pause` (lines 74-75): unconditionally writes `PAUSED`. -/
def Scheduler.pause (s : Scheduler) : Scheduler :=
  { s with state := THREAD_STATE_PAUSED }

/-- Source method `Scheduler.stop` (lines 77-78): unconditionally writes `ABORT`. -/
def Scheduler.stop (s : Scheduler) : Scheduler :=
  { s with state := THREAD_STATE_ABORT }

/-- One pass of the worker's job loop (lines 63-65):
`for job in self.jobs: if job.scheduled: job.run()`.
CPython iterates a list by index over the live list, so when the job at the
current index removes itself (the only list mutation the job machinery
performs, removing the object at the current position since job objects are
distinct), the element that slid into that index is passed over and the loop
continues after it; that element stays in the list.  Returns the final job
list and the ids of the jobs whose `process` was invoked, in invocation
order. -/
def schedulerTick (now : Nat) : List KernelJob → List KernelJob × List Nat
  | [] => ([], [])
  | j :: rest =>
      if j.scheduled now then
        let p := j.run now
        let ev : List Nat := if p.2.2 then [j.id] else []
        if p.2.1 then
          match rest with
          | [] => ([], ev)
          | k :: rest' =>
              let r := schedulerTick now rest'
              (k :: r.1, ev ++ r.2)
        else
          let r := schedulerTick now rest
          (p.1 :: r.1, ev ++ r.2)
      else
        let r := schedulerTick now rest
        (j :: r.1, r.2)

/-- Repeated worker passes at the given sequence of wake-up times,
accumulating the invocation events. -/
def schedulerTicks : List Nat → List KernelJob → List KernelJob × List Nat
  | [], l => (l, [])
  | t :: ts, l =>
      let r := schedulerTick t l
      let r2 := schedulerTicks ts r.1
      (r2.1, r.2 ++ r2.2)

/-- Predicate `dueSeq start interval ts`: each time in `ts` is at or after the job's
current `next_run`, given that a run at time `t` reschedules the job at
`t + interval` (line 40). -/
def dueSeq (start interval : Nat) : List Nat → Bool
  | [] => true
  | t :: ts => decide (start ≤ t) && dueSeq (t + interval) interval ts

/- ## Signal bus (`Kernel.py` lines 155-211, 370-383) -/

/-- A dynamically typed Python value as the bus handles it: a signal name
(string, compared by content) or a listener function (compared by object
identity, abstracted to an id). -/
inductive PyVal where
  | str : String → PyVal
  | fn : Nat → PyVal
deriving DecidableEq, Repr

/-- The kernel's signal-bus fields (`self.listeners`, `self.last_message`,
`self.message_queue`, `self.is_queue_processing`; the `queue_lock` serializes
`message_queue` accesses and is implicit in this sequential model). -/
structure Bus where
  listeners : List (PyVal × List PyVal)
  last_message : List (PyVal × PyVal)
  message_queue : List (PyVal × PyVal)
  is_queue_processing : Bool
deriving DecidableEq, Repr

/-- Source method `Kernel.signal` (lines 177-180): under the queue lock,
`self.message_queue[code] = message`. -/
def Kernel.signal (b : Bus) (code message : PyVal) : Bus :=
  { b with message_queue := dictSet b.message_queue code message }

/-- The loop body of `Kernel.process_queue` (lines 194-199): for each
`(code, message)` of the swapped-out queue in insertion order, invoke every
listener in `self.listeners[code]` (if the key exists) with the message,
then `self.last_message[code] = message`.  Listener invocations are returned
as `(code, listener, message)` events in invocation order. -/
def processLoop (listeners : List (PyVal × List PyVal)) :
    List (PyVal × PyVal) → List (PyVal × PyVal) →
      List (PyVal × PyVal) × List (PyVal × PyVal × PyVal)
  | [], last => (last, [])
  | (code, message) :: rest, last =>
      let evs : List (PyVal × PyVal × PyVal) :=
        match dictGet listeners code with
        | some ls => ls.map (fun l => (code, l, message))
        | none => []
      let r := processLoop listeners rest (dictSet last code message)
      (r.1, evs ++ r.2)

/-- Source method `Kernel.process_queue` (lines 187-200): set the reentrancy flag, swap
the pending queue for an empty dict under the lock, deliver the snapshot via
`processLoop`, clear the flag.  Returns the new bus state and the listener
invocation events. -/
def Kernel.process_queue (b : Bus) : Bus × List (PyVal × PyVal × PyVal) :=
  let r := processLoop b.listeners b.message_queue b.last_message
  ({ b with message_queue := [], last_message := r.1,
            is_queue_processing := false }, r.2)

/-- Source method `Kernel.listen` (lines 370-378): append `function` to
`self.listeners[signal]` (creating the entry if absent), then, if
`signal in self.last_message`, invoke `function(last_message)` immediately.
The synchronous replay invocation is returned as a `(function, message)`
event. -/
def Kernel.listen (b : Bus) (signal function : PyVal) :
    Bus × List (PyVal × PyVal) :=
  let listeners' :=
    match dictGet b.listeners signal with
    | some ls => dictSet b.listeners signal (ls ++ [function])
    | none => dictSet b.listeners signal [function]
  let evs : List (PyVal × PyVal) :=
    match dictGet b.last_message signal with
    | some v => [(function, v)]
    | none => []
  ({ b with listeners := listeners' }, evs)

/-- Source method `Kernel.unlisten` (lines 380-383).  Note the source's parameter order:
`def unlisten(self, listener, code)` — the FIRST parameter is the element
removed from the list, the SECOND is the dict key, while the class docstring
(line 123) and the `__setitem__` caller (line 206) use
`unlisten(signal, function)`.  `listeners.remove(listener)` raises
`ValueError` when the element is absent. -/
def Kernel.unlisten (b : Bus) (listener code : PyVal) : Except PyErr Bus :=
  match dictGet b.listeners code with
  | none => .ok b
  | some ls =>
      if listener ∈ ls then
        .ok { b with listeners := dictSet b.listeners code (listRemove ls listener) }
      else .error .valueError

/-- The tuple branch of `Kernel.__setitem__` (lines 202-209):
`kernel[(a, b)] = None` unpacks the tuple and calls `self.unlisten(a, b)`;
a non-`None` assigned value calls `self.listen(a, b)`. -/
def kernelSetItemTuple (b : Bus) (k1 k2 : PyVal) (value : Option PyVal) :
    Except PyErr (Bus × List (PyVal × PyVal)) :=
  match value with
  | none =>
      match Kernel.unlisten b k1 k2 with
      | .ok b' => .ok (b', [])
      | .error e => .error e
  | some _ => .ok (Kernel.listen b k1 k2)

/- ## Lifecycle registry (`Kernel.py` lines 414-454) -/

/-- A registered module, abstracted to which lifecycle methods it exposes
plus a log of the capability invocations made on it (a module's method body
is external code; the kernel only calls it). -/
structure PyModule where
  hasStart : Bool
  hasPause : Bool
  hasResume : Bool
  hasAbort : Bool
  hasStop : Bool
  hasReset : Bool
  calls : List String
deriving DecidableEq, Repr

/-- Field `self.modules`: the kernel's name → module map. -/
abbrev KMods := List (String × PyModule)

/-- Source method `Kernel.start` (lines 420-424): `self.modules[thread_name].start()`
inside `try ... except AttributeError: pass`.  A missing name raises
`KeyError` from the dict lookup (not caught); a present module lacking the
method raises `AttributeError` from the attribute access (caught). -/
def Kernel.start (modules : KMods) (thread_name : String) :
    Except PyErr KMods :=
  match dictGet modules thread_name with
  | none => .error .keyError
  | some m =>
      if m.hasStart then
        .ok (dictSet modules thread_name { m with calls := m.calls ++ ["start"] })
      else .ok modules

/-- Source method `Kernel.resume` (lines 426-430); same shape as `Kernel.start`. -/
def Kernel.resume (modules : KMods) (thread_name : String) :
    Except PyErr KMods :=
  match dictGet modules thread_name with
  | none => .error .keyError
  | some m =>
      if m.hasResume then
        .ok (dictSet modules thread_name { m with calls := m.calls ++ ["resume"] })
      else .ok modules

/-- Source method `Kernel.pause` (lines 432-436); same shape as `Kernel.start`. -/
def Kernel.pause (modules : KMods) (thread_name : String) :
    Except PyErr KMods :=
  match dictGet modules thread_name with
  | none => .error .keyError
  | some m =>
      if m.hasPause then
        .ok (dictSet modules thread_name { m with calls := m.calls ++ ["pause"] })
      else .ok modules

/-- Source method `Kernel.abort` (lines 438-442); same shape as `Kernel.start`. -/
def Kernel.abort (modules : KMods) (thread_name : String) :
    Except PyErr KMods :=
  match dictGet modules thread_name with
  | none => .error .keyError
  | some m =>
      if m.hasAbort then
        .ok (dictSet modules thread_name { m with calls := m.calls ++ ["abort"] })
      else .ok modules

/-- Source method `Kernel.reset` (lines 444-448); same shape as `Kernel.start`. -/
def Kernel.reset (modules : KMods) (thread_name : String) :
    Except PyErr KMods :=
  match dictGet modules thread_name with
  | none => .error .keyError
  | some m =>
      if m.hasReset then
        .ok (dictSet modules thread_name { m with calls := m.calls ++ ["reset"] })
      else .ok modules

/-- Source method `Kernel.stop` (lines 450-454); same shape as `Kernel.start`. -/
def Kernel.stop (modules : KMods) (thread_name : String) :
    Except PyErr KMods :=
  match dictGet modules thread_name with
  | none => .error .keyError
  | some m =>
      if m.hasStop then
        .ok (dictSet modules thread_name { m with calls := m.calls ++ ["stop"] })
      else .ok modules

/-- The six uniform lifecycle operations of the kernel. -/
inductive LifeOp where
  | start
  | pause
  | resume
  | abort
  | stop
  | reset
deriving DecidableEq, Repr

/-- Whether a module exposes the method probed by the given operation. -/
def LifeOp.hasCap : LifeOp → PyModule → Bool
  | .start, m => m.hasStart
  | .pause, m => m.hasPause
  | .resume, m => m.hasResume
  | .abort, m => m.hasAbort
  | .stop, m => m.hasStop
  | .reset, m => m.hasReset

/-- Dispatch a lifecycle operation to the corresponding kernel method. -/
def kernelLifecycle : LifeOp → KMods → String → Except PyErr KMods
  | .start, ms, n => Kernel.start ms n
  | .pause, ms, n => Kernel.pause ms n
  | .resume, ms, n => Kernel.resume ms n
  | .abort, ms, n => Kernel.abort ms n
  | .stop, ms, n => Kernel.stop ms n
  | .reset, ms, n => Kernel.reset ms n

/- ## Loader dispatch (`Kernel.py` lines 470-475) -/

/-- Python `s.endswith(suffix)` for strings. -/
def pyEndswith (s suffix : String) : Bool :=
  suffix.data.isSuffixOf s.data

/-- Python `s.lower()`, modelled per character on the ASCII range (the
pathnames and extensions handled here are ASCII strings). -/
def pyLower (s : String) : String :=
  ⟨s.data.map Char.toLower⟩

/-- A registered loader plugin: its `load_types()` listing of
`(description, extensions, mimetype)` tuples (the extension tuple becomes a
list); its `load(pathname, group)` method is external code. -/
structure Loader where
  load_types : List (String × List String × String)
deriving DecidableEq, Repr

/-- The inner loop of `Kernel.load` (lines 472-473): does any
`(description, extensions, mimetype)` entry satisfy
`pathname.lower().endswith(extensions)`?  Python's `str.endswith` with a
tuple argument tests each suffix in turn; note only the pathname is
lowercased, the extensions are compared verbatim. -/
def loadTypesMatch (pathname : String) :
    List (String × List String × String) → Bool
  | [] => false
  | (_, extensions, _) :: rest =>
      if extensions.any (fun ext => pyEndswith (pyLower pathname) ext) then true
      else loadTypesMatch pathname rest

/-- Source method `Kernel.load` (lines 470-475): walk `self.loaders.items()` in insertion
(registration) order; the first loader with a matching entry has its
`load(pathname, group)` invoked and `True` is returned — modelled as
`some name` of the invoked loader.  When no loader matches the function
falls through and returns Python `None` (falsy) — modelled as `none`;
no loader is invoked. -/
def Kernel.load : List (String × Loader) → String → Option String
  | [], _ => none
  | (name, loader) :: rest, pathname =>
      if loadTypesMatch pathname loader.load_types then some name
      else Kernel.load rest pathname

/-- Does a loader advertise an entry matching `pathname` under the source's
rule (lowercased pathname, verbatim extensions)?  Equivalent to
`loadTypesMatch` (proved below). -/
def loaderMatches (pathname : String) (loader : Loader) : Bool :=
  loader.load_types.any
    (fun t => t.2.1.any (fun ext => pyEndswith (pyLower pathname) ext))

/-- Modelled from the spec: the spec's matching rule, "matching the target
path's extension (case-insensitive) against each registered plugin's
extension list" — a comparison that is insensitive to case on both sides. -/
def matchesCaseInsensitive (pathname ext : String) : Bool :=
  pyEndswith (pyLower pathname) (pyLower ext)

/- ## Config persistence (`Kernel.py` lines 261-269) -/

/-- A Python value of one of the types `write_config` tests for.  Floats
appear only via their type tag (no claim depends on float arithmetic). -/
inductive PyV where
  | pstr : String → PyV
  | pint : Int → PyV
  | pfloat : PyV
  | pbool : Bool → PyV
deriving DecidableEq, Repr

/-- Python `isinstance(value, str)`. -/
def isinstanceStr : PyV → Bool
  | .pstr _ => true
  | _ => false

/-- Python `isinstance(value, int)`.  `bool` is a subclass of `int` in
Python, so booleans satisfy this test. -/
def isinstanceInt : PyV → Bool
  | .pint _ => true
  | .pbool _ => true
  | _ => false

/-- Python `isinstance(value, float)`. -/
def isinstanceFloat : PyV → Bool
  | .pfloat => true
  | _ => false

/-- Python `isinstance(value, bool)`. -/
def isinstanceBool : PyV → Bool
  | .pbool _ => true
  | _ => false

/-- Which typed write method of the config store was called, and with what
arguments.  `skip` is the implicit fall-through when no branch matches. -/
inductive ConfigWrite where
  | write : String → PyV → ConfigWrite
  | writeInt : String → PyV → ConfigWrite
  | writeFloat : String → PyV → ConfigWrite
  | writeBool : String → PyV → ConfigWrite
  | skip : ConfigWrite
deriving DecidableEq, Repr

/-- Source method `Kernel.write_config` (lines 261-269): the `isinstance` chain
`str` / `int` / `float` / `bool`, in that order, dispatching to
`config.Write` / `WriteInt` / `WriteFloat` / `WriteBool` with the value
passed through unchanged. -/
def Kernel.write_config (key : String) (value : PyV) : ConfigWrite :=
  if isinstanceStr value then .write key value
  else if isinstanceInt value then .writeInt key value
  else if isinstanceFloat value then .writeFloat key value
  else if isinstanceBool value then .writeBool key value
  else .skip

/-- Is the `ConfigWrite` a `WriteBool` call? -/
def ConfigWrite.isWriteBool : ConfigWrite → Bool
  | .writeBool _ _ => true
  | _ => false

/- ## Helper lemmas: dictionaries -/

theorem dictGet_dictSet_self {κ α : Type} [DecidableEq κ]
    (d : List (κ × α)) (k : κ) (v : α) : dictGet (dictSet d k v) k = some v := by
  induction d with
  | nil => simp [dictGet, dictSet]
  | cons e rest ih =>
      obtain ⟨k', v'⟩ := e
      by_cases h : k' = k
      · simp [dictGet, dictSet, h]
      · simp [dictGet, dictSet, h, ih]

theorem dictGet_dictSet_ne {κ α : Type} [DecidableEq κ]
    (d : List (κ × α)) (k k' : κ) (v : α) (h : k' ≠ k) :
    dictGet (dictSet d k v) k' = dictGet d k' := by
  have hk : ¬ k = k' := fun hh => h hh.symm
  induction d with
  | nil => simp [dictGet, dictSet, hk]
  | cons e rest ih =>
      obtain ⟨k1, v1⟩ := e
      by_cases h1 : k1 = k
      · subst h1
        simp [dictGet, dictSet, hk]
      · simp [dictGet, dictSet, h1, ih]

theorem dictSet_dictSet_same {κ α : Type} [DecidableEq κ]
    (d : List (κ × α)) (k : κ) (a b : α) :
    dictSet (dictSet d k a) k b = dictSet d k b := by
  induction d with
  | nil => simp [dictSet]
  | cons e rest ih =>
      obtain ⟨k', v'⟩ := e
      by_cases h : k' = k
      · simp [dictSet, h]
      · simp [dictSet, h, ih]

theorem filter_key_eq_nil {κ α : Type} [DecidableEq κ]
    (d : List (κ × α)) (k : κ) (h : k ∉ d.map Prod.fst) :
    d.filter (fun e => decide (e.1 = k)) = [] := by
  induction d with
  | nil => simp
  | cons e rest ih =>
      obtain ⟨k', v'⟩ := e
      simp only [List.map_cons, List.mem_cons] at h
      push_neg at h
      have hk : ¬ k' = k := fun hh => h.1 hh.symm
      simp [List.filter_cons, hk, ih h.2]

theorem dictSet_filter_key {κ α : Type} [DecidableEq κ]
    (d : List (κ × α)) (k : κ) (v : α) (h : (d.map Prod.fst).Nodup) :
    (dictSet d k v).filter (fun e => decide (e.1 = k)) = [(k, v)] := by
  induction d with
  | nil => simp [dictSet]
  | cons e rest ih =>
      obtain ⟨k', v'⟩ := e
      simp only [List.map_cons, List.nodup_cons] at h
      by_cases hk : k' = k
      · subst hk
        simp [dictSet, List.filter_cons, filter_key_eq_nil rest k' h.1]
      · simp [dictSet, hk, List.filter_cons, ih h.2]

/- ## Helper lemmas: `KernelJob.run` and the tick loop -/

theorem run_paused (j : KernelJob) (now : Nat) (h : j.paused = true) :
    j.run now = (j, false, false) := by
  simp [KernelJob.run, h]

theorem run_unpaused (j : KernelJob) (now : Nat) (h : j.paused = false) :
    j.run now =
      (⟨j.id, j.interval, now, some (now + j.interval),
        j.times.map (fun t => t - 1), j.paused⟩, selfRemoves j, true) := by
  cases j with
  | mk i iv lr nr tm p =>
      cases p
      · cases tm <;> simp [KernelJob.run, selfRemoves, Option.map]
      · simp at h

theorem scheduled_mono (j : KernelJob) (now now' : Nat)
    (h : j.scheduled now = true) (hle : now ≤ now') :
    j.scheduled now' = true := by
  cases hnr : j.next_run with
  | none => simp [KernelJob.scheduled, hnr] at h
  | some t =>
      simp only [KernelJob.scheduled, hnr, decide_eq_true_eq] at h ⊢
      omega

theorem tick_events_no_removal (now : Nat) (L : List KernelJob)
    (h : ∀ j ∈ L, j.scheduled now = true → j.paused = false → selfRemoves j = false) :
    (schedulerTick now L).2 =
      (L.filter (fun j => j.scheduled now && !j.paused)).map (fun j => j.id) := by
  induction L with
  | nil => simp [schedulerTick]
  | cons j rest ih =>
      have hrest : ∀ j' ∈ rest, j'.scheduled now = true → j'.paused = false →
          selfRemoves j' = false :=
        fun j' hj' => h j' (List.mem_cons_of_mem j hj')
      by_cases hs : j.scheduled now
      · by_cases hp : j.paused
        · simp [schedulerTick, hs, run_paused j now hp, List.filter_cons, hp,
            ih hrest]
        · have hp' : j.paused = false := by simpa using hp
          have hsr : selfRemoves j = false := h j (List.mem_cons_self j rest) hs hp'
          simp [schedulerTick, hs, run_unpaused j now hp', hsr, List.filter_cons,
            hp', ih hrest]
      · have hs' : j.scheduled now = false := by simpa using hs
        simp [schedulerTick, hs', List.filter_cons, ih hrest]

theorem tick_mem_paused (now : Nat) (L : List KernelJob) (j : KernelJob)
    (hj : j ∈ L) (hp : j.paused = true) : j ∈ (schedulerTick now L).1 := by
  have key : ∀ (n : Nat) (l : List KernelJob), l.length ≤ n → j ∈ l →
      j ∈ (schedulerTick now l).1 := by
    intro n
    induction n with
    | zero =>
        intro l hl hm
        cases l with
        | nil => simp at hm
        | cons a rest => simp at hl
    | succ n ih =>
        intro l hl hm
        cases l with
        | nil => simp at hm
        | cons a rest =>
            by_cases hs : a.scheduled now
            · rcases List.mem_cons.mp hm with hja | hjr
              · subst hja
                simp [schedulerTick, hs, run_paused j now hp]
              · by_cases hrem : (a.run now).2.1
                · cases rest with
                  | nil => simp at hjr
                  | cons k rest' =>
                      rcases List.mem_cons.mp hjr with hjk | hjr'
                      · subst hjk
                        simp [schedulerTick, hs, hrem]
                      · have hlen : rest'.length ≤ n := by
                          simp only [List.length_cons] at hl
                          omega
                        have := ih rest' hlen hjr'
                        simp [schedulerTick, hs, hrem]
                        exact Or.inr this
                · have hlen : rest.length ≤ n := by
                    simp only [List.length_cons] at hl
                    omega
                  have := ih rest hlen hjr
                  simp [schedulerTick, hs, hrem]
                  exact Or.inr this
            · rcases List.mem_cons.mp hm with hja | hjr
              · subst hja
                simp [schedulerTick, hs]
              · have hlen : rest.length ≤ n := by
                  simp only [List.length_cons] at hl
                  omega
                have := ih rest hlen hjr
                simp [schedulerTick, hs]
                exact Or.inr this
  exact key L.length L le_rfl hj

/- ## Helper lemmas: `processLoop` -/

theorem filter_events_map (ls : List PyVal) (c m topic : PyVal) :
    (ls.map (fun l => (c, l, m))).filter (fun e => decide (e.1 = topic)) =
      if c = topic then ls.map (fun l => (c, l, m)) else [] := by
  induction ls with
  | nil => simp
  | cons x xs ih =>
      by_cases h : c = topic
      · simp only [h] at ih ⊢
        simp [List.filter_cons, ih]
      · simp only [List.map_cons, List.filter_cons]
        simp [h, ih]

theorem processLoop_events_filter_nil (L : List (PyVal × List PyVal))
    (q last : List (PyVal × PyVal)) (topic : PyVal)
    (h : q.filter (fun e => decide (e.1 = topic)) = []) :
    ((processLoop L q last).2).filter (fun e => decide (e.1 = topic)) = [] := by
  induction q generalizing last with
  | nil => simp [processLoop]
  | cons e rest ih =>
      obtain ⟨c, m⟩ := e
      by_cases hc : c = topic
      · simp [List.filter_cons, hc] at h
      · have h' : rest.filter (fun e => decide (e.1 = topic)) = [] := by
          simpa [List.filter_cons, hc] using h
        cases hg : dictGet L c <;>
          simp [processLoop, hg, List.filter_append, filter_events_map, hc,
            ih (dictSet last c m) h']

theorem processLoop_events_filter_single (L : List (PyVal × List PyVal))
    (q last : List (PyVal × PyVal)) (topic v : PyVal)
    (h : q.filter (fun e => decide (e.1 = topic)) = [(topic, v)]) :
    ((processLoop L q last).2).filter (fun e => decide (e.1 = topic)) =
      ((dictGet L topic).getD []).map (fun l => (topic, l, v)) := by
  induction q generalizing last with
  | nil => simp at h
  | cons e rest ih =>
      obtain ⟨c, m⟩ := e
      by_cases hc : c = topic
      · subst hc
        have h' : m = v ∧ rest.filter (fun e => decide (e.1 = c)) = [] := by
          simpa [List.filter_cons] using h
        obtain ⟨hm, h2⟩ := h'
        subst hm
        cases hg : dictGet L c <;>
          simp [processLoop, hg, List.filter_append, filter_events_map,
            processLoop_events_filter_nil L rest (dictSet last c m) c h2]
      · have h' : rest.filter (fun e => decide (e.1 = topic)) = [(topic, v)] := by
          simpa [List.filter_cons, hc] using h
        cases hg : dictGet L c <;>
          simp [processLoop, hg, List.filter_append, filter_events_map, hc,
            ih (dictSet last c m) h']

theorem processLoop_last_absent (L : List (PyVal × List PyVal))
    (q last : List (PyVal × PyVal)) (topic : PyVal)
    (h : q.filter (fun e => decide (e.1 = topic)) = []) :
    dictGet (processLoop L q last).1 topic = dictGet last topic := by
  induction q generalizing last with
  | nil => simp [processLoop]
  | cons e rest ih =>
      obtain ⟨c, m⟩ := e
      by_cases hc : c = topic
      · simp [List.filter_cons, hc] at h
      · have h' : rest.filter (fun e => decide (e.1 = topic)) = [] := by
          simpa [List.filter_cons, hc] using h
        have hne : topic ≠ c := fun hh => hc hh.symm
        simp [processLoop, ih (dictSet last c m) h',
          dictGet_dictSet_ne last c topic m hne]

theorem processLoop_last_single (L : List (PyVal × List PyVal))
    (q last : List (PyVal × PyVal)) (topic v : PyVal)
    (h : q.filter (fun e => decide (e.1 = topic)) = [(topic, v)]) :
    dictGet (processLoop L q last).1 topic = some v := by
  induction q generalizing last with
  | nil => simp at h
  | cons e rest ih =>
      obtain ⟨c, m⟩ := e
      by_cases hc : c = topic
      · subst hc
        have h' : m = v ∧ rest.filter (fun e => decide (e.1 = c)) = [] := by
          simpa [List.filter_cons] using h
        obtain ⟨hm, h2⟩ := h'
        subst hm
        simp [processLoop,
          processLoop_last_absent L rest (dictSet last c m) c h2,
          dictGet_dictSet_self]
      · have h' : rest.filter (fun e => decide (e.1 = topic)) = [(topic, v)] := by
          simpa [List.filter_cons, hc] using h
        simp [processLoop, ih (dictSet last c m) h']

/- ## Helper lemmas: loader dispatch -/

theorem loadTypesMatch_eq_any (pathname : String)
    (lts : List (String × List String × String)) :
    loadTypesMatch pathname lts =
      lts.any (fun t => t.2.1.any (fun ext => pyEndswith (pyLower pathname) ext)) := by
  induction lts with
  | nil => simp [loadTypesMatch]
  | cons t rest ih =>
      obtain ⟨d, exts, mt⟩ := t
      by_cases h : exts.any (fun ext => pyEndswith (pyLower pathname) ext) <;>
        simp [loadTypesMatch, h, ih]

theorem loaderMatches_eq (pathname : String) (l : Loader) :
    loaderMatches pathname l = loadTypesMatch pathname l.load_types := by
  simp [loaderMatches, loadTypesMatch_eq_any]

theorem schedulerTicks_cons (t : Nat) (ts : List Nat) (L : List KernelJob) :
    schedulerTicks (t :: ts) L
      = ((schedulerTicks ts (schedulerTick t L).1).1,
         (schedulerTick t L).2 ++ (schedulerTicks ts (schedulerTick t L).1).2) := rfl

/- ## Claim theorems -/

/-- C1 counterexample: the claim says every lifecycle operation on an
unregistered name returns normally without raising, but
`Kernel.pause("X")` on a kernel with an empty module map raises `KeyError`
from `self.modules["X"]` (only `AttributeError` is caught). -/
theorem C1_counterexample :
    kernelLifecycle LifeOp.pause [] "X" = Except.error PyErr.keyError := rfl

/-- C1 (amended): for every lifecycle operation in
{start, pause, resume, abort, stop, reset}: if the name is not a key of the
module map the operation raises `KeyError`; if the name is registered but
the module lacks the corresponding capability method, the operation returns
normally and leaves the module map (hence every module's state) unchanged
— a silent no-op. -/
theorem C1_lifecycle_probe (op : LifeOp) (modules : KMods) (name : String) :
    (dictGet modules name = none →
      kernelLifecycle op modules name = Except.error PyErr.keyError)
    ∧ (∀ m, dictGet modules name = some m → op.hasCap m = false →
      kernelLifecycle op modules name = Except.ok modules) := by
  cases op with
  | start =>
      refine ⟨fun h => ?_, fun m hm hc => ?_⟩
      · simp [kernelLifecycle, Kernel.start, h]
      · simp only [LifeOp.hasCap] at hc
        simp [kernelLifecycle, Kernel.start, hm, hc]
  | pause =>
      refine ⟨fun h => ?_, fun m hm hc => ?_⟩
      · simp [kernelLifecycle, Kernel.pause, h]
      · simp only [LifeOp.hasCap] at hc
        simp [kernelLifecycle, Kernel.pause, hm, hc]
  | resume =>
      refine ⟨fun h => ?_, fun m hm hc => ?_⟩
      · simp [kernelLifecycle, Kernel.resume, h]
      · simp only [LifeOp.hasCap] at hc
        simp [kernelLifecycle, Kernel.resume, hm, hc]
  | abort =>
      refine ⟨fun h => ?_, fun m hm hc => ?_⟩
      · simp [kernelLifecycle, Kernel.abort, h]
      · simp only [LifeOp.hasCap] at hc
        simp [kernelLifecycle, Kernel.abort, hm, hc]
  | stop =>
      refine ⟨fun h => ?_, fun m hm hc => ?_⟩
      · simp [kernelLifecycle, Kernel.stop, h]
      · simp only [LifeOp.hasCap] at hc
        simp [kernelLifecycle, Kernel.stop, hm, hc]
  | reset =>
      refine ⟨fun h => ?_, fun m hm hc => ?_⟩
      · simp [kernelLifecycle, Kernel.reset, h]
      · simp only [LifeOp.hasCap] at hc
        simp [kernelLifecycle, Kernel.reset, hm, hc]

/-- C1 witness: instantiating the amended theorem — pausing a registered
module that only has `start` is a silent no-op, and starting an unregistered
name raises `KeyError`. -/
theorem C1_lifecycle_probe_witness :
    kernelLifecycle LifeOp.pause [("m", ⟨true, false, false, false, false, false, []⟩)] "m"
      = Except.ok [("m", ⟨true, false, false, false, false, false, []⟩)]
    ∧ kernelLifecycle LifeOp.start [] "X" = Except.error PyErr.keyError :=
  ⟨(C1_lifecycle_probe LifeOp.pause
      [("m", ⟨true, false, false, false, false, false, []⟩)] "m").2
      ⟨true, false, false, false, false, false, []⟩ rfl rfl,
   (C1_lifecycle_probe LifeOp.start [] "X").1 rfl⟩

/-- C2 counterexample: from the Aborted state, `resume()` moves the
scheduler's state to Started — the Aborted state is escaped by an operation
other than the worker marking Finished. -/
theorem C2_counterexample :
    (Scheduler.stop ⟨THREAD_STATE_UNSTARTED, []⟩).state = THREAD_STATE_ABORT
    ∧ (Scheduler.resume (Scheduler.stop ⟨THREAD_STATE_UNSTARTED, []⟩)).state
        = THREAD_STATE_STARTED
    ∧ THREAD_STATE_STARTED ≠ THREAD_STATE_ABORT :=
  ⟨rfl, rfl, by decide⟩

/-- C2 (amended): `stop()` sets the scheduler state to Aborted, but Aborted
is not a terminal state: the state setters are unconditional, so a
subsequent `resume()` changes the state to Started and a subsequent
`pause()` changes it to Paused. -/
theorem C2_stop_not_terminal (s : Scheduler) :
    (s.stop).state = THREAD_STATE_ABORT
    ∧ ((s.stop).resume).state = THREAD_STATE_STARTED
    ∧ ((s.stop).pause).state = THREAD_STATE_PAUSED
    ∧ ((s.stop).stop).state = THREAD_STATE_ABORT :=
  ⟨rfl, rfl, rfl, rfl⟩

/-- C6 (confirmed): `Kernel.listen(topic, fn)` appends `fn` to the topic's
listener list; when `last_message` holds a value for the topic, `fn` is
invoked synchronously with that value before `listen` returns (the returned
event list), with the pending queue untouched (no flush involved); when
`last_message` has no entry for the topic, no invocation happens. -/
theorem C6_listen_replay (b : Bus) (topic fn : PyVal) :
    dictGet (Kernel.listen b topic fn).1.listeners topic
        = some (((dictGet b.listeners topic).getD []) ++ [fn])
    ∧ (Kernel.listen b topic fn).2
        = (match dictGet b.last_message topic with
           | some v => [(fn, v)]
           | none => [])
    ∧ (Kernel.listen b topic fn).1.last_message = b.last_message
    ∧ (Kernel.listen b topic fn).1.message_queue = b.message_queue := by
  refine ⟨?_, rfl, rfl, rfl⟩
  cases hg : dictGet b.listeners topic <;>
    simp [Kernel.listen, hg, dictGet_dictSet_self]

/-- C7: evaluation of `Kernel.unlisten` at the failing input.  With
`listeners = {"sig": [f0]}`: (1) removing via `kernel[("sig", f0)] = None`
(the `__setitem__` path, which follows the documented `(signal, function)`
order) leaves the listener registered, because `unlisten` binds its first
parameter as the element to remove and its second as the topic key; (2) the
direct documented-order call is likewise a no-op; (3) even in the body's own
`(listener, code)` order, removing a listener that is not subscribed raises
`ValueError` instead of being a no-op. -/
theorem C7_unlisten_at_failing_input :
    kernelSetItemTuple ⟨[(PyVal.str "sig", [PyVal.fn 0])], [], [], false⟩
        (PyVal.str "sig") (PyVal.fn 0) none
      = Except.ok (⟨[(PyVal.str "sig", [PyVal.fn 0])], [], [], false⟩, [])
    ∧ Kernel.unlisten ⟨[(PyVal.str "sig", [PyVal.fn 0])], [], [], false⟩
        (PyVal.str "sig") (PyVal.fn 0)
      = Except.ok ⟨[(PyVal.str "sig", [PyVal.fn 0])], [], [], false⟩
    ∧ Kernel.unlisten ⟨[(PyVal.str "sig", [PyVal.fn 0])], [], [], false⟩
        (PyVal.fn 1) (PyVal.str "sig")
      = Except.error PyErr.valueError := by
  refine ⟨rfl, rfl, ?_⟩
  simp [Kernel.unlisten, dictGet]

/-- C10 (confirmed): `write_config` stores every boolean through
`config.WriteInt`, because the `isinstance(value, int)` test precedes the
`isinstance(value, bool)` test and Python booleans are instances of `int`;
the `WriteBool` branch is unreachable for every input. -/
theorem C10_write_config_bool (key : String) (b : Bool) (v : PyV) :
    Kernel.write_config key (PyV.pbool b) = ConfigWrite.writeInt key (PyV.pbool b)
    ∧ (Kernel.write_config key v).isWriteBool = false := by
  constructor
  · simp [Kernel.write_config, isinstanceStr, isinstanceInt]
  · cases v <;>
      simp [Kernel.write_config, isinstanceStr, isinstanceInt, isinstanceFloat,
        isinstanceBool, ConfigWrite.isWriteBool]

/-- C3 counterexample: with jobs `[A, J]` both due at time 0, where `A` has
one remaining run (so it removes itself during its run), the tick executes
only `A` (events `[0]`); `J` is due (`scheduled = true`) yet is not executed
in that pass, because the removal shifts the list under the iterator. -/
theorem C3_counterexample :
    KernelJob.scheduled ⟨1, 1, 0, some 0, none, false⟩ 0 = true
    ∧ schedulerTick 0
        [⟨0, 1, 0, some 0, some 1, false⟩, ⟨1, 1, 0, some 0, none, false⟩]
        = ([⟨1, 1, 0, some 0, none, false⟩], [0])
    ∧ ¬ (1 ∈ (schedulerTick 0
        [⟨0, 1, 0, some 0, some 1, false⟩, ⟨1, 1, 0, some 0, none, false⟩]).2) :=
  ⟨rfl, by decide, by decide⟩

/-- C3 (amended): within one tick, jobs are visited in insertion order and,
in a pass in which no job removes itself (no due unpaused job's finite count
reaches zero), every job that is due and unpaused is executed exactly once,
in order.  A job that does remove itself during its own run causes the job
immediately after it in the collection to be skipped for that pass: the
skipped job stays in the collection untouched. -/
theorem C3_tick_iteration :
    (∀ (now : Nat) (L : List KernelJob),
      (∀ j ∈ L, j.scheduled now = true → j.paused = false → selfRemoves j = false) →
      (schedulerTick now L).2 =
        (L.filter (fun j => j.scheduled now && !j.paused)).map (fun j => j.id))
    ∧ (∀ (now : Nat) (j k : KernelJob) (rest : List KernelJob),
      j.scheduled now = true → j.paused = false → selfRemoves j = true →
      schedulerTick now (j :: k :: rest)
        = (k :: (schedulerTick now rest).1, j.id :: (schedulerTick now rest).2)) := by
  constructor
  · exact fun now L h => tick_events_no_removal now L h
  · intro now j k rest hs hp hsr
    simp [schedulerTick, hs, run_unpaused j now hp, hsr]

/-- C3 witness: a pass over two unlimited-count due jobs executes both, in
order; a pass starting at a one-run job followed by another job executes the
first and skips (but keeps) the second. -/
theorem C3_tick_iteration_witness :
    (schedulerTick 0 [⟨0, 1, 0, some 0, none, false⟩, ⟨1, 1, 0, some 0, none, false⟩]).2
        = ([(⟨0, 1, 0, some 0, none, false⟩ : KernelJob),
            ⟨1, 1, 0, some 0, none, false⟩].filter
              (fun j => j.scheduled 0 && !j.paused)).map (fun j => j.id)
    ∧ schedulerTick 5 [⟨2, 1, 0, some 0, some 1, false⟩, ⟨3, 1, 0, some 0, none, false⟩]
        = (⟨3, 1, 0, some 0, none, false⟩ :: (schedulerTick 5 []).1,
           2 :: (schedulerTick 5 []).2) :=
  ⟨C3_tick_iteration.1 0
      [⟨0, 1, 0, some 0, none, false⟩, ⟨1, 1, 0, some 0, none, false⟩] (by decide),
   C3_tick_iteration.2 5 ⟨2, 1, 0, some 0, some 1, false⟩
      ⟨3, 1, 0, some 0, none, false⟩ [] (by decide) (by decide) (by decide)⟩

/-- C9 counterexample: a paused due job `J` is untouched by a tick (as the
claim's first part says), but after unpausing it, the first tick does NOT
run it: the earlier job `A` (one remaining run, due at 10) removes itself
and `J` is skipped, so events are `[0]` and `J`'s id 1 is not invoked. -/
theorem C9_counterexample :
    schedulerTick 0 [⟨0, 1, 0, some 10, some 1, false⟩, ⟨1, 1, 0, some 0, none, true⟩]
        = ([⟨0, 1, 0, some 10, some 1, false⟩, ⟨1, 1, 0, some 0, none, true⟩], [])
    ∧ KernelJob.scheduled ⟨1, 1, 0, some 0, none, false⟩ 10 = true
    ∧ schedulerTick 10 [⟨0, 1, 0, some 10, some 1, false⟩, ⟨1, 1, 0, some 0, none, false⟩]
        = ([⟨1, 1, 0, some 0, none, false⟩], [0]) :=
  ⟨by decide, rfl, by decide⟩

/-- C9 (amended): a paused job's `run()` returns immediately with no effect
(fields unchanged, no removal, work item not invoked); a paused job always
stays in the job collection across a tick; `scheduled` stays true as time
advances (a paused due job remains due); and after unpausing, the job is
executed by the first tick that reaches it — in particular by any tick in
which no job removes itself. -/
theorem C9_paused_job_frame :
    (∀ (j : KernelJob) (now : Nat), j.paused = true →
      KernelJob.run j now = (j, false, false))
    ∧ (∀ (now : Nat) (L : List KernelJob) (j : KernelJob), j ∈ L →
      j.paused = true → j ∈ (schedulerTick now L).1)
    ∧ (∀ (j : KernelJob) (now now' : Nat), j.scheduled now = true →
      now ≤ now' → j.scheduled now' = true)
    ∧ (∀ (now : Nat) (L : List KernelJob),
      (∀ j ∈ L, j.scheduled now = true → j.paused = false → selfRemoves j = false) →
      ∀ j ∈ L, j.scheduled now = true → j.paused = false →
        j.id ∈ (schedulerTick now L).2) := by
  refine ⟨fun j now h => run_paused j now h,
    fun now L j hj hp => tick_mem_paused now L j hj hp,
    fun j now now' h hle => scheduled_mono j now now' h hle,
    ?_⟩
  intro now L h j hj hs hp
  rw [tick_events_no_removal now L h]
  exact List.mem_map_of_mem _ (List.mem_filter.mpr ⟨hj, by simp [hs, hp]⟩)

/-- C9 witness: the four parts of the theorem at concrete jobs — a paused
job's run is a no-op, a paused job survives a tick, `scheduled` is monotone
in time, and an unpaused due job is executed by a removal-free tick. -/
theorem C9_paused_job_frame_witness :
    KernelJob.run ⟨5, 1, 0, some 0, none, true⟩ 3
        = (⟨5, 1, 0, some 0, none, true⟩, false, false)
    ∧ (⟨5, 1, 0, some 0, none, true⟩ : KernelJob)
        ∈ (schedulerTick 3 [⟨5, 1, 0, some 0, none, true⟩]).1
    ∧ KernelJob.scheduled ⟨5, 1, 0, some 0, none, false⟩ 7 = true
    ∧ (6 : Nat) ∈ (schedulerTick 3 [⟨6, 1, 0, some 0, none, false⟩]).2 :=
  ⟨C9_paused_job_frame.1 ⟨5, 1, 0, some 0, none, true⟩ 3 rfl,
   C9_paused_job_frame.2.1 3 [⟨5, 1, 0, some 0, none, true⟩]
      ⟨5, 1, 0, some 0, none, true⟩ (by decide) rfl,
   C9_paused_job_frame.2.2.1 ⟨5, 1, 0, some 0, none, false⟩ 0 7 (by decide) (by decide),
   C9_paused_job_frame.2.2.2 3 [⟨6, 1, 0, some 0, none, false⟩] (by decide)
      ⟨6, 1, 0, some 0, none, false⟩ (by decide) (by decide) rfl⟩

/-- C5 (confirmed): `signal(topic, v1)` then `signal(topic, v2)` with no
flush in between coalesces in the pending dict; the next `process_queue`
invokes exactly the listeners currently subscribed to `topic`, each once and
with `v2` (the topic's delivery events are precisely the topic's listener
list paired with `v2`, so `v1` is dropped), and sets
`last_message[topic] = v2` whether or not any listener is subscribed. -/
theorem C5_signal_coalescing (b : Bus) (topic v1 v2 : PyVal)
    (hq : (b.message_queue.map Prod.fst).Nodup) :
    ((Kernel.process_queue (Kernel.signal (Kernel.signal b topic v1) topic v2)).2.filter
        (fun e => decide (e.1 = topic)))
      = ((dictGet b.listeners topic).getD []).map (fun l => (topic, l, v2))
    ∧ dictGet (Kernel.process_queue
        (Kernel.signal (Kernel.signal b topic v1) topic v2)).1.last_message topic
      = some v2 := by
  have hq2 : Kernel.signal (Kernel.signal b topic v1) topic v2
      = { b with message_queue := dictSet b.message_queue topic v2 } := by
    simp [Kernel.signal, dictSet_dictSet_same]
  have hfil : (dictSet b.message_queue topic v2).filter
      (fun e => decide (e.1 = topic)) = [(topic, v2)] :=
    dictSet_filter_key b.message_queue topic v2 hq
  rw [hq2]
  constructor
  · simpa [Kernel.process_queue] using
      processLoop_events_filter_single b.listeners
        (dictSet b.message_queue topic v2) b.last_message topic v2 hfil
  · simpa [Kernel.process_queue] using
      processLoop_last_single b.listeners
        (dictSet b.message_queue topic v2) b.last_message topic v2 hfil

/-- C5 witness: on a bus with two subscribed listeners for topic "t", a
pending message for another topic, and no prior last message, emitting "a"
then "b" on "t" and flushing delivers exactly `(t, f0, b)` and `(t, f1, b)`
and records `last_message["t"] = "b"`. -/
theorem C5_signal_coalescing_witness :
    ((([(PyVal.str "u", PyVal.str "w")] : List (PyVal × PyVal)).map Prod.fst).Nodup)
    ∧ (((Kernel.process_queue (Kernel.signal (Kernel.signal
          ⟨[(PyVal.str "t", [PyVal.fn 0, PyVal.fn 1])], [],
            [(PyVal.str "u", PyVal.str "w")], false⟩
          (PyVal.str "t") (PyVal.str "a")) (PyVal.str "t") (PyVal.str "b"))).2.filter
            (fun e => decide (e.1 = PyVal.str "t")))
        = ((dictGet ([(PyVal.str "t", [PyVal.fn 0, PyVal.fn 1])] :
              List (PyVal × List PyVal)) (PyVal.str "t")).getD []).map
            (fun l => (PyVal.str "t", l, PyVal.str "b"))
    ∧ dictGet (Kernel.process_queue (Kernel.signal (Kernel.signal
          ⟨[(PyVal.str "t", [PyVal.fn 0, PyVal.fn 1])], [],
            [(PyVal.str "u", PyVal.str "w")], false⟩
          (PyVal.str "t") (PyVal.str "a")) (PyVal.str "t") (PyVal.str "b"))).1.last_message
          (PyVal.str "t")
        = some (PyVal.str "b")) :=
  ⟨by decide,
   C5_signal_coalescing
      ⟨[(PyVal.str "t", [PyVal.fn 0, PyVal.fn 1])], [],
        [(PyVal.str "u", PyVal.str "w")], false⟩
      (PyVal.str "t") (PyVal.str "a") (PyVal.str "b") (by decide)⟩

/-- C8 counterexample: a loader registered with the uppercase extension
"SVG" matches pathname "a.SVG" under the spec's case-insensitive rule, yet
`Kernel.load` invokes no loader and returns failure (`None`), because the
code lowercases only the pathname and compares the extension verbatim. -/
theorem C8_counterexample :
    matchesCaseInsensitive "a.SVG" "SVG" = true
    ∧ Kernel.load [("svgLoader", ⟨[("desc", ["SVG"], "image")]⟩)] "a.SVG" = none :=
  ⟨by decide, by decide⟩

/-- C8 (amended): `Kernel.load` tries the registered loaders in
registration order and, within each loader, its advertised entries in
order; the first loader one of whose extension strings is a verbatim suffix
of the lowercased pathname is invoked and `load` returns success, all
earlier loaders not matching; when no loader matches, `load` returns the
falsy `None` and no loader is invoked.  Matching is case-insensitive in the
pathname only; extensions are compared exactly as registered. -/
theorem C8_load_by_extension (loaders : List (String × Loader)) (pathname : String) :
    (Kernel.load loaders pathname = none →
      ∀ nl ∈ loaders, loaderMatches pathname nl.2 = false)
    ∧ (∀ name, Kernel.load loaders pathname = some name →
      ∃ pre l post, loaders = pre ++ (name, l) :: post
        ∧ loaderMatches pathname l = true
        ∧ ∀ nl ∈ pre, loaderMatches pathname nl.2 = false) := by
  induction loaders with
  | nil =>
      refine ⟨fun _ nl hnl => absurd hnl (List.not_mem_nil nl), fun name h => ?_⟩
      simp [Kernel.load] at h
  | cons e rest ih =>
      obtain ⟨n0, l0⟩ := e
      by_cases hm : loadTypesMatch pathname l0.load_types = true
      · refine ⟨fun h => ?_, fun name h => ?_⟩
        · simp [Kernel.load, hm] at h
        · have hname : n0 = name := by simpa [Kernel.load, hm] using h
          subst hname
          exact ⟨[], l0, rest, rfl, by rw [loaderMatches_eq]; exact hm, by simp⟩
      · have hm' : loadTypesMatch pathname l0.load_types = false := by
          simpa using hm
        refine ⟨fun h => ?_, fun name h => ?_⟩
        · intro nl hnl
          rcases List.mem_cons.mp hnl with h0 | hr
          · rw [h0, loaderMatches_eq]
            exact hm'
          · have hrest : Kernel.load rest pathname = none := by
              simpa [Kernel.load, hm'] using h
            exact ih.1 hrest nl hr
        · have hrest : Kernel.load rest pathname = some name := by
            simpa [Kernel.load, hm'] using h
          obtain ⟨pre, l, post, hsplit, hmatch, hpre⟩ := ih.2 name hrest
          refine ⟨(n0, l0) :: pre, l, post, by simp [hsplit], hmatch, ?_⟩
          intro nl hnl
          rcases List.mem_cons.mp hnl with h0 | hr
          · rw [h0, loaderMatches_eq]
            exact hm'
          · exact hpre nl hr

/-- C8 witness: with only a "png" loader registered, loading "a.svg" fails
and indeed no registered loader matches; with an "svg" loader registered,
loading "a.svg" succeeds with that loader first-matching. -/
theorem C8_load_by_extension_witness :
    (∀ nl ∈ ([("pngLoader", (⟨[("png", ["png"], "image")]⟩ : Loader))] :
        List (String × Loader)), loaderMatches "a.svg" nl.2 = false)
    ∧ (∃ pre l post,
        ([("svgLoader", (⟨[("svg", ["svg"], "image")]⟩ : Loader))] :
            List (String × Loader)) = pre ++ ("svgLoader", l) :: post
        ∧ loaderMatches "a.svg" l = true
        ∧ ∀ nl ∈ pre, loaderMatches "a.svg" nl.2 = false) :=
  ⟨(C8_load_by_extension
      [("pngLoader", (⟨[("png", ["png"], "image")]⟩ : Loader))] "a.svg").1 (by decide),
   (C8_load_by_extension
      [("svgLoader", (⟨[("svg", ["svg"], "image")]⟩ : Loader))] "a.svg").2
      "svgLoader" (by decide)⟩

/-- C4 (confirmed): a job registered with finite count `N >= 1` and never
paused has its work item invoked exactly `N` times over its lifetime (ticks
at any times at which it is due), and after the `N`-th execution it is
absent from the scheduler's job collection.  Each execution follows the
source's order: clear `next_run`, decrement the count, self-unregister at
zero, invoke the work item, recompute `last_run`/`next_run`
(see `KernelJob.run`). -/
theorem C4_finite_count_job (i iv lr r N : Nat) (ts : List Nat)
    (hN : 1 ≤ N) (hlen : ts.length = N) (hdue : dueSeq r iv ts = true) :
    schedulerTicks ts [⟨i, iv, lr, some r, some (N : Int), false⟩]
      = ([], List.replicate N i) := by
  induction ts generalizing N r lr with
  | nil =>
      simp only [List.length_nil] at hlen
      omega
  | cons t ts' ih =>
      simp only [List.length_cons] at hlen
      simp only [dueSeq, Bool.and_eq_true, decide_eq_true_eq] at hdue
      obtain ⟨hrt, hdue'⟩ := hdue
      have hsched : (⟨i, iv, lr, some r, some (N : Int), false⟩ : KernelJob).scheduled t
          = true := by
        simp [KernelJob.scheduled]
        exact hrt
      have hrun := run_unpaused ⟨i, iv, lr, some r, some (N : Int), false⟩ t rfl
      cases ts' with
      | nil =>
          simp only [List.length_nil] at hlen
          have hN1 : N = 1 := by omega
          subst hN1
          have hsr : selfRemoves ⟨i, iv, lr, some r, some ((1 : Nat) : Int), false⟩
              = true := by
            simp [selfRemoves]
          simp only [Nat.cast_one] at hsched hrun hsr
          simp [schedulerTicks, schedulerTick, hsched, hrun, hsr, List.replicate_one]
      | cons t2 ts'' =>
          simp only [List.length_cons] at hlen
          have hN2 : 2 ≤ N := by omega
          have hsr : selfRemoves ⟨i, iv, lr, some r, some ((N : Nat) : Int), false⟩
              = false := by
            simp [selfRemoves]
            omega
          have hcast : ((N : Int) - 1) = (((N - 1 : Nat)) : Int) := by omega
          have htick : schedulerTick t [⟨i, iv, lr, some r, some ((N : Nat) : Int), false⟩]
              = ([⟨i, iv, t, some (t + iv), some (((N - 1 : Nat)) : Int), false⟩], [i]) := by
            simp [schedulerTick, hsched, hrun, hsr, hcast]
          have ihr := ih t (t + iv) (N - 1) (by omega) (by simp; omega) hdue'
          have hNs : N = (N - 1) + 1 := by omega
          have hrep : List.replicate N i = i :: List.replicate (N - 1) i := by
            conv_lhs => rw [hNs]
            rw [List.replicate_succ]
          rw [schedulerTicks_cons, htick, ihr]
          simp [hrep]

/-- C4 witness: a job with count 2, interval 5, first due at 5, run at
times 5 and 10, executes exactly twice and the job list ends empty. -/
theorem C4_finite_count_job_witness :
    (dueSeq 5 5 [5, 10] = true)
    ∧ schedulerTicks [5, 10] [⟨7, 5, 0, some 5, some ((2 : Nat) : Int), false⟩]
        = ([], List.replicate 2 7) :=
  ⟨by decide, C4_finite_count_job 7 5 0 5 2 [5, 10] (by decide) (by decide) (by decide)⟩
